import Mathlib

/-!
Verification development for the fakeChain document-certification service.

The on-chain registry (`DocumentVerification.sol`) is embedded as a state of
type `String → Document` (a Solidity mapping with zero-initialized default),
with `registerDocument`, `verifyDocument` and `getDocument` translated
directly from the contract.  The Node service layer (certificate-number
generator, multer file filter, text/PDF stampers, QR-payload extraction and
the HTTP handlers) is embedded as pure functions over the request data, with
the filesystem and registry effects made explicit in the handlers' result
records.
-/

namespace FakeChain

/-- Record stored by the contract for one certificate (struct `Document` in
`DocumentVerification.sol`).  `exists` mirrors the Solidity field used to
distinguish a written record from the mapping's zero default. -/
structure Document where
  certificateNumber : String
  documentHash : String
  timestamp : Nat
  exists' : Bool
deriving DecidableEq, Repr

/-- The zero value a Solidity `mapping(string => Document)` yields for an
unwritten key. -/
def emptyDoc : Document := ⟨"", "", 0, false⟩

/-- Contract storage: the `documents` mapping. -/
structure ContractState where
  docs : String → Document

/-- Contract storage right after deployment: every key unwritten. -/
def initialState : ContractState := ⟨fun _ => emptyDoc⟩

/-- `registerDocument` from `DocumentVerification.sol`: reverts with
"Certificate number already exists" when the key is taken, otherwise writes
the record (whose `certificateNumber` field is the key itself) with the
block timestamp.  The revert is modelled as `Except.error` carrying the
require message. -/
def registerDocument (s : ContractState) (cert hash : String) (time : Nat) :
    Except String ContractState :=
  if (s.docs cert).exists' then
    Except.error "Certificate number already exists"
  else
    Except.ok ⟨fun k => if k = cert then ⟨cert, hash, time, true⟩ else s.docs k⟩

/-- `verifyDocument` from `DocumentVerification.sol`: `(false, 0)` for an
unwritten key, else the pair of hash equality and the stored timestamp.  The
contract compares `keccak256(abi.encodePacked ·)` of the two hash strings;
for strings this keccak comparison is the Solidity idiom for string
equality, modelled here as `==` on `String`. -/
def verifyDocument (s : ContractState) (cert hash : String) : Bool × Nat :=
  let doc := s.docs cert
  if !doc.exists' then (false, 0)
  else (doc.documentHash == hash, doc.timestamp)

/-- `getDocument` from `DocumentVerification.sol`: returns the raw record
fields (certificateNumber, documentHash, timestamp, exists). -/
def getDocument (s : ContractState) (cert : String) :
    String × String × Nat × Bool :=
  let doc := s.docs cert
  (doc.certificateNumber, doc.documentHash, doc.timestamp, doc.exists')

/-- States reachable from `s` through any sequence of successful
`registerDocument` calls — the contract's only state-changing operation. -/
inductive ReachableFrom : ContractState → ContractState → Prop where
  | refl (s : ContractState) : ReachableFrom s s
  | step {s s' s'' : ContractState} {c h : String} {t : Nat} :
      ReachableFrom s s' → registerDocument s' c h t = Except.ok s'' →
      ReachableFrom s s''

/-- One successful registration as recorded in a trace. -/
structure RegEvent where
  cert : String
  hash : String
  time : Nat
deriving DecidableEq, Repr

/-- `Trace evs s`: state `s` arises from the deployed contract by the listed
successful registrations, in order. -/
inductive Trace : List RegEvent → ContractState → Prop where
  | nil : Trace [] initialState
  | cons {evs : List RegEvent} {s s' : ContractState} {c h : String} {t : Nat} :
      Trace evs s → registerDocument s c h t = Except.ok s' →
      Trace (evs ++ [⟨c, h, t⟩]) s'

/-- A successful `registerDocument` call never changes an already-written
record. -/
theorem register_preserves {s s' : ContractState} {c h : String} {t : Nat}
    (hreg : registerDocument s c h t = Except.ok s') (k : String)
    (hk : (s.docs k).exists' = true) : s'.docs k = s.docs k := by
  unfold registerDocument at hreg
  by_cases hex : (s.docs c).exists' = true
  · simp [hex] at hreg
  · simp [hex] at hreg
    subst hreg
    have hkc : k ≠ c := by
      intro he; subst he; rw [hk] at hex; exact hex rfl
    simp [hkc]

/-- Existing records survive any sequence of further registrations. -/
theorem reachable_preserves {s s' : ContractState}
    (hr : ReachableFrom s s') (k : String)
    (hk : (s.docs k).exists' = true) : s'.docs k = s.docs k := by
  induction hr with
  | refl => rfl
  | step _ hreg ih =>
      rw [register_preserves hreg k (by rw [ih]; exact hk), ih]

/-- C1: after a successful `register(id, h1)`, a later `register(id, h2)`
reverts with the AlreadyExists message, the stored record for `id` is
exactly the one the first registration wrote, and no later successful
registration (the contract's only state-changing operation) ever updates or
deletes it. -/
theorem C1_register_once_immutable (s : ContractState) (id h1 h2 : String)
    (t1 : Nat) (s1 : ContractState)
    (hreg : registerDocument s id h1 t1 = Except.ok s1) :
    (∀ t2, registerDocument s1 id h2 t2 =
        Except.error "Certificate number already exists") ∧
    s1.docs id = ⟨id, h1, t1, true⟩ ∧
    (∀ s2, ReachableFrom s1 s2 → s2.docs id = ⟨id, h1, t1, true⟩) := by
  unfold registerDocument at hreg
  by_cases hex : (s.docs id).exists' = true
  · simp [hex] at hreg
  · simp [hex] at hreg
    subst hreg
    refine ⟨?_, ?_, ?_⟩
    · intro t2
      unfold registerDocument
      simp
    · simp
    · intro s2 h2r
      rw [reachable_preserves h2r id (by simp)]
      simp

/-- First registration used by the concrete witnesses below. -/
def st1 : ContractState :=
  ⟨fun k => if k = "CERT-1" then ⟨"CERT-1", "h1", 5, true⟩
            else initialState.docs k⟩

/-- C1 witness: concretely, re-registering `CERT-1` after a successful first
registration reverts with the AlreadyExists message. -/
theorem C1_register_once_immutable_witness :
    registerDocument st1 "CERT-1" "h2" 7 =
      Except.error "Certificate number already exists" :=
  (C1_register_once_immutable initialState "CERT-1" "h1" "h2" 5 st1 rfl).1 7

/-- C2: `verifyDocument` returns `(false, 0)` when no record exists, and
otherwise returns the equality of the candidate hash with the stored one
together with the stored timestamp, whatever the comparison's outcome. -/
theorem C2_verify_semantics (s : ContractState) (cert hash : String) :
    ((s.docs cert).exists' = false → verifyDocument s cert hash = (false, 0)) ∧
    ((s.docs cert).exists' = true →
      verifyDocument s cert hash =
        ((s.docs cert).documentHash == hash, (s.docs cert).timestamp)) := by
  constructor
  · intro hne
    unfold verifyDocument
    simp [hne]
  · intro hex
    unfold verifyDocument
    simp [hex]

/-- C2 witness: on the concrete one-record state, an unknown certificate
yields `(false, 0)` and a wrong hash yields `(false, 5)`. -/
theorem C2_verify_semantics_witness :
    verifyDocument st1 "CERT-0" "h1" = (false, 0) ∧
    verifyDocument st1 "CERT-1" "WRONG" = ((false : Bool), 5) :=
  ⟨(C2_verify_semantics st1 "CERT-0" "h1").1 rfl,
   (C2_verify_semantics st1 "CERT-1" "WRONG").2 rfl⟩

/-- In a trace, every recorded event's key is written in the final state. -/
theorem trace_key_written {evs : List RegEvent} {s : ContractState}
    (htr : Trace evs s) : ∀ e ∈ evs, (s.docs e.cert).exists' = true := by
  induction htr with
  | nil => intro e he; cases he
  | @cons evs s s' c h t htr hreg ih =>
      intro e he
      rcases List.mem_append.mp he with hin | hin
      · have hold := ih e hin
        rw [register_preserves hreg e.cert hold]
        exact hold
      · have he' : e = ⟨c, h, t⟩ := by
          simpa using hin
        subst he'
        unfold registerDocument at hreg
        by_cases hex : (s.docs c).exists' = true
        · simp [hex] at hreg
        · simp [hex] at hreg
          subst hreg
          simp

/-- C9: in every reachable contract state, a written record's
`certificateNumber` equals its mapping key, its hash and timestamp are the
ones from its unique registration event, and `registerDocument` — the only
state-changing operation — preserves every written record. -/
theorem C9_state_invariant (evs : List RegEvent) (s : ContractState)
    (htr : Trace evs s) (k : String) (hk : (s.docs k).exists' = true) :
    (s.docs k).certificateNumber = k ∧
    (evs.filter (fun e => e.cert == k)).length = 1 ∧
    (∃ e ∈ evs, e.cert = k ∧ (s.docs k).documentHash = e.hash ∧
        (s.docs k).timestamp = e.time) ∧
    (∀ c h t s', registerDocument s c h t = Except.ok s' →
        s'.docs k = s.docs k) := by
  induction htr with
  | nil => simp [initialState, emptyDoc] at hk
  | @cons evs s s' c h t htr hreg ih =>
      have hpres : ∀ c' h' t' s'', registerDocument s' c' h' t' = Except.ok s'' →
          s''.docs k = s'.docs k := fun c' h' t' s'' hr =>
        register_preserves hr k hk
      have hnew := hreg
      unfold registerDocument at hnew
      by_cases hex : (s.docs c).exists' = true
      · simp [hex] at hnew
      · simp [hex] at hnew
        subst hnew
        by_cases hkc : k = c
        · subst hkc
          have hnotin : ∀ e ∈ evs, e.cert ≠ k := by
            intro e he heq
            have := trace_key_written htr e he
            rw [heq] at this
            rw [this] at hex
            exact hex rfl
          refine ⟨by simp, ?_, ?_, hpres⟩
          · rw [List.filter_append]
            have h0 : evs.filter (fun e => e.cert == k) = [] := by
              apply List.filter_eq_nil_iff.mpr
              intro e he
              simp [hnotin e he]
            rw [h0]
            simp
          · exact ⟨⟨k, h, t⟩, List.mem_append_right _ (by simp), rfl, by simp, by simp⟩
        · have hsk : (ContractState.mk
              (fun k' => if k' = c then ⟨c, h, t, true⟩ else s.docs k')).docs k
                = s.docs k := by
            simp [hkc]
          have hk' : (s.docs k).exists' = true := by rw [hsk] at hk; exact hk
          obtain ⟨hcert, hcount, hev, _⟩ := ih hk'
          refine ⟨by rw [hsk]; exact hcert, ?_, ?_, hpres⟩
          · rw [List.filter_append]
            have hone : [RegEvent.mk c h t].filter (fun e => e.cert == k) = [] := by
              have hbk : ((RegEvent.mk c h t).cert == k) = false := by
                simp only [beq_eq_false_iff_ne]
                exact fun he => hkc he.symm
              simp [List.filter_cons, hbk]
            rw [hone]
            simpa using hcount
          · obtain ⟨e, hin, he1, he2, he3⟩ := hev
            exact ⟨e, List.mem_append_left _ hin, he1,
              by rw [hsk]; exact he2, by rw [hsk]; exact he3⟩

/-- C9 witness: on the concrete one-registration trace, the record stored
under `CERT-1` carries `CERT-1` as its own `certificateNumber`. -/
theorem C9_state_invariant_witness :
    (st1.docs "CERT-1").certificateNumber = "CERT-1" :=
  (C9_state_invariant [⟨"CERT-1", "h1", 5⟩] st1
    (Trace.cons Trace.nil rfl) "CERT-1" rfl).1

/-! ## Certificate identifier generator (`generateCertificateNumber`) -/

/-- JS `s.slice(-8)`: the last 8 characters, or the whole string when it is
shorter. -/
def jsSliceLast8 (s : String) : String := ⟨s.data.drop (s.data.length - 8)⟩

/-- JS `s.padStart(4, '0')`: left-pad with zeros to length 4. -/
def jsPadStart4Zero (s : String) : String :=
  ⟨List.replicate (4 - s.data.length) '0' ++ s.data⟩

/-- `generateCertificateNumber` from the server: `CERT` + the last 8 digits
of `Date.now().toString()` + a 4-digit zero-padded random number, joined by
hyphens.  `now` is the millisecond clock value, `rand` the value of
`Math.floor(Math.random() * 10000)`. -/
def generateCertificateNumber (now rand : Nat) : String :=
  "CERT" ++ "-" ++ jsSliceLast8 (Nat.repr now) ++ "-" ++
    jsPadStart4Zero (Nat.repr rand)

/-- Checker for the shape `CERT-` + four digits... : the tail after the
second hyphen must be exactly four decimal digits. -/
def tailDashCheck : List Char → Bool
  | '-' :: r => decide (r.length = 4) && r.all Char.isDigit
  | _ => false

/-- Checker for eight digits, a hyphen, then four digits, and nothing else. -/
def digitsDashCheck (rest : List Char) : Bool :=
  decide ((rest.take 8).length = 8) && (rest.take 8).all Char.isDigit &&
    tailDashCheck (rest.drop 8)

/-- Decides whether a string matches `CERT-\d\d\d\d\d\d\d\d-\d\d\d\d`
exactly (the claim's pattern `CERT-\d{8}-\d{4}`). -/
def matchesCertPattern (s : String) : Bool :=
  match s.data with
  | 'C' :: 'E' :: 'R' :: 'T' :: '-' :: rest => digitsDashCheck rest
  | _ => false

theorem digitChar_isDigit (m : Nat) (hm : m < 10) :
    (Nat.digitChar m).isDigit = true := by
  interval_cases m <;> rfl

/-- Every character `Nat.toDigitsCore` emits in base 10 is a decimal
digit. -/
theorem toDigitsCore_digits :
    ∀ (fuel n : Nat) (acc : List Char), (∀ c ∈ acc, c.isDigit = true) →
      ∀ c ∈ Nat.toDigitsCore 10 fuel n acc, c.isDigit = true := by
  intro fuel
  induction fuel with
  | zero => intro n acc hacc c hc; exact hacc c hc
  | succ f ih =>
      intro n acc hacc c hc
      rw [Nat.toDigitsCore] at hc
      by_cases h0 : n / 10 = 0
      · simp only [h0, if_true] at hc
        rcases List.mem_cons.mp hc with hc | hc
        · subst hc; exact digitChar_isDigit _ (Nat.mod_lt _ (by norm_num))
        · exact hacc c hc
      · simp only [h0, if_false] at hc
        refine ih (n / 10) _ ?_ c hc
        intro c' hc'
        rcases List.mem_cons.mp hc' with hc' | hc'
        · subst hc'; exact digitChar_isDigit _ (Nat.mod_lt _ (by norm_num))
        · exact hacc c' hc'

/-- With enough fuel, `Nat.toDigitsCore` emits at least `k + 1` digits for a
number at least `10 ^ k`. -/
theorem toDigitsCore_length_ge :
    ∀ (fuel k n : Nat) (acc : List Char), n + 1 ≤ fuel → 10 ^ k ≤ n →
      k + 1 + acc.length ≤ (Nat.toDigitsCore 10 fuel n acc).length := by
  intro fuel
  induction fuel with
  | zero => intro k n acc hf; omega
  | succ f ih =>
      intro k n acc hf hk
      rw [Nat.toDigitsCore]
      by_cases h0 : n / 10 = 0
      · simp only [h0, if_true, List.length_cons]
        have hn10 : n < 10 := (Nat.div_eq_zero_iff (by norm_num)).mp h0
        have hk0 : k = 0 := by
          by_contra hne
          have : 10 ^ 1 ≤ 10 ^ k := Nat.pow_le_pow_right (by norm_num) (by omega)
          simp at this
          omega
        omega
      · simp only [h0, if_false]
        have hn1 : 1 ≤ n := by
          by_contra hn
          have : n = 0 := by omega
          subst this
          simp at h0
        have hfuel : n / 10 + 1 ≤ f := by
          have : n / 10 < n := Nat.div_lt_self (by omega) (by norm_num)
          omega
        by_cases hk0 : k = 0
        · subst hk0
          have h1 : 10 ^ 0 ≤ n / 10 := by
            have : 1 ≤ n / 10 := by omega
            simpa using this
          have := ih 0 (n / 10) (Nat.digitChar (n % 10) :: acc) hfuel h1
          simp only [List.length_cons] at this
          omega
        · have hstep : 10 ^ (k - 1) ≤ n / 10 := by
            rw [Nat.le_div_iff_mul_le (by norm_num)]
            calc 10 ^ (k - 1) * 10 = 10 ^ (k - 1 + 1) := by rw [Nat.pow_succ]
              _ = 10 ^ k := by congr 1; omega
              _ ≤ n := hk
          have := ih (k - 1) (n / 10) (Nat.digitChar (n % 10) :: acc) hfuel hstep
          simp only [List.length_cons] at this
          omega

/-- `Nat.toDigitsCore` emits at most `k` digits for a number below
`10 ^ k` (for `k ≥ 1`). -/
theorem toDigitsCore_length_le :
    ∀ (fuel k n : Nat) (acc : List Char), 1 ≤ k → n < 10 ^ k →
      (Nat.toDigitsCore 10 fuel n acc).length ≤ k + acc.length := by
  intro fuel
  induction fuel with
  | zero => intro k n acc hk _; rw [Nat.toDigitsCore]; omega
  | succ f ih =>
      intro k n acc hk hn
      rw [Nat.toDigitsCore]
      by_cases h0 : n / 10 = 0
      · simp only [h0, if_true, List.length_cons]; omega
      · simp only [h0, if_false]
        have hn10 : 10 ≤ n := by
          by_contra hlt
          exact h0 ((Nat.div_eq_zero_iff (by norm_num)).mpr (by omega))
        have hk2 : 2 ≤ k := by
          by_contra hlt
          have hk1 : k = 1 := by omega
          subst hk1
          simp at hn
          omega
        have hstep : n / 10 < 10 ^ (k - 1) := by
          rw [Nat.div_lt_iff_lt_mul (by norm_num)]
          calc n < 10 ^ k := hn
            _ = 10 ^ (k - 1 + 1) := by congr 1; omega
            _ = 10 ^ (k - 1) * 10 := by rw [Nat.pow_succ]
        have := ih (k - 1) (n / 10) (Nat.digitChar (n % 10) :: acc)
          (by omega) hstep
        simp only [List.length_cons] at this
        omega

/-- Every character of `Nat.repr n` is a decimal digit. -/
theorem repr_all_digits (n : Nat) : ∀ c ∈ (Nat.repr n).data, c.isDigit = true :=
  toDigitsCore_digits (n + 1) n [] (by intro c hc; cases hc)

/-- `Nat.repr n` has at least eight characters once `n ≥ 10 ^ 7`. -/
theorem repr_length_ge8 (n : Nat) (hn : 10 ^ 7 ≤ n) :
    8 ≤ (Nat.repr n).data.length := by
  have := toDigitsCore_length_ge (n + 1) 7 n [] (by omega) hn
  simpa using this

/-- `Nat.repr n` has at most four characters when `n < 10000`. -/
theorem repr_length_le4 (n : Nat) (hn : n < 10000) :
    (Nat.repr n).data.length ≤ 4 := by
  have := toDigitsCore_length_le (n + 1) 4 n [] (by norm_num) (by norm_num; omega)
  simpa using this

theorem digitsDashCheck_build (A B : List Char) (hA : A.length = 8)
    (hB : B.length = 4) (hAd : ∀ c ∈ A, c.isDigit = true)
    (hBd : ∀ c ∈ B, c.isDigit = true) :
    digitsDashCheck (A ++ '-' :: B) = true := by
  unfold digitsDashCheck
  rw [← hA, List.take_left, List.drop_left]
  show (_ && _ && tailDashCheck ('-' :: B)) = true
  unfold tailDashCheck
  simp [List.all_eq_true, hB]
  exact ⟨hAd, hBd⟩

/-- C8: under the clock values the running system can observe
(`Date.now() ≥ 10^7`, so its decimal form has at least eight digits) and the
random draw's range (`rand < 10000`), every generated certificate identifier
matches `CERT-\d{8}-\d{4}` exactly. -/
theorem C8_cert_pattern (now rand : Nat) (hnow : 10 ^ 7 ≤ now)
    (hrand : rand < 10000) :
    matchesCertPattern (generateCertificateNumber now rand) = true := by
  have hdata : (generateCertificateNumber now rand).data =
      'C' :: 'E' :: 'R' :: 'T' :: '-' ::
        ((jsSliceLast8 (Nat.repr now)).data ++
          '-' :: (jsPadStart4Zero (Nat.repr rand)).data) := by
    unfold generateCertificateNumber
    rw [String.data_append, String.data_append, String.data_append,
      String.data_append]
    show ['C', 'E', 'R', 'T'] ++ ['-'] ++ _ ++ ['-'] ++ _ = _
    simp
  have hA_len : (jsSliceLast8 (Nat.repr now)).data.length = 8 := by
    unfold jsSliceLast8
    have h8 := repr_length_ge8 now hnow
    show ((Nat.repr now).data.drop ((Nat.repr now).data.length - 8)).length = 8
    rw [List.length_drop]
    omega
  have hA_dig : ∀ c ∈ (jsSliceLast8 (Nat.repr now)).data, c.isDigit = true := by
    intro c hc
    exact repr_all_digits now c (List.mem_of_mem_drop hc)
  have hB_len : (jsPadStart4Zero (Nat.repr rand)).data.length = 4 := by
    unfold jsPadStart4Zero
    have h4 := repr_length_le4 rand hrand
    show (List.replicate (4 - (Nat.repr rand).data.length) '0' ++
      (Nat.repr rand).data).length = 4
    rw [List.length_append, List.length_replicate]
    omega
  have hB_dig : ∀ c ∈ (jsPadStart4Zero (Nat.repr rand)).data,
      c.isDigit = true := by
    intro c hc
    unfold jsPadStart4Zero at hc
    simp only [List.mem_append] at hc
    rcases hc with hc | hc
    · rw [List.eq_of_mem_replicate hc]; rfl
    · exact repr_all_digits rand c hc
  unfold matchesCertPattern
  rw [hdata]
  exact digitsDashCheck_build _ _ hA_len hB_len hA_dig hB_dig

/-- C8 witness: a concrete clock value and random draw satisfy the
hypotheses and produce a pattern-matching identifier. -/
theorem C8_cert_pattern_witness :
    10 ^ 7 ≤ 1760123456789 ∧ 42 < 10000 ∧
    matchesCertPattern (generateCertificateNumber 1760123456789 42) = true :=
  ⟨by norm_num, by norm_num,
    C8_cert_pattern 1760123456789 42 (by norm_num) (by norm_num)⟩

/-! ## Path and string helpers (Node `path`, JS string methods) -/

/-- The basename part of a path: the characters after the last `/`. -/
def afterLastSlash (cs : List Char) : List Char :=
  cs.foldl (fun acc c => if c = '/' then [] else acc ++ [c]) []

/-- Index of the last `.` in a character list, if any. -/
def lastDot : List Char → Option Nat
  | [] => none
  | c :: rest =>
    match lastDot rest with
    | some i => some (i + 1)
    | none => if c = '.' then some 0 else none

/-- Node `path.extname`: the basename's suffix from its last dot (dot
included); `""` when there is no dot, when the only dot leads the basename
(dotfiles), or for the special basename `..`. -/
def pathExtname (s : String) : String :=
  let base := afterLastSlash s.data
  if base = ['.', '.'] then ""
  else
    match lastDot base with
    | none => ""
    | some i => if i = 0 then "" else ⟨base.drop i⟩

/-- JS `toLowerCase`, per character (the names here are ASCII). -/
def lowerStr (s : String) : String := ⟨s.data.map Char.toLower⟩

/-! ## Upload validation (multer `fileFilter` and `limits`) -/

/-- The alternatives of the `fileFilter` regex `/pdf|png|jpg|jpeg|txt/`. -/
def altSubs : List (List Char) :=
  ["pdf", "png", "jpg", "jpeg", "txt"].map String.data

/-- One regex-engine start position: does some alternative match here? -/
def matchAltAt (cs : List Char) : Bool :=
  altSubs.any (fun p => p.isPrefixOf cs)

/-- `regex.test(s)`: try every start position left to right. -/
def regexSearch : List Char → Bool
  | [] => false
  | c :: rest => matchAltAt (c :: rest) || regexSearch rest

/-- The multer `fileFilter`: accept iff
`/pdf|png|jpg|jpeg|txt/.test(path.extname(originalname).toLowerCase())`. -/
def fileFilterAccepts (originalname : String) : Bool :=
  regexSearch (lowerStr (pathExtname originalname)).data

/-- Full multer acceptance: the `fileFilter` plus the configured
`limits.fileSize` of `10 * 1024 * 1024` bytes. -/
def uploadAccepted (originalname : String) (size : Nat) : Bool :=
  fileFilterAccepts originalname && decide (size ≤ 10 * 1024 * 1024)

/-- Acceptance as claim C7 words it (spec-side definition, for comparison):
exactly the extensions .pdf/.png/.jpg/.jpeg/.txt, case-insensitively,
within the size limit. -/
def claimAccepts (originalname : String) (size : Nat) : Bool :=
  [".pdf", ".png", ".jpg", ".jpeg", ".txt"].contains
      (lowerStr (pathExtname originalname)) &&
    decide (size ≤ 10 * 1024 * 1024)

/-- `SubSeg p l`: `p` occurs contiguously somewhere inside `l`. -/
def SubSeg (p l : List Char) : Prop := ∃ u v, u ++ p ++ v = l

theorem isPrefixOf_iff_ex (p : List Char) :
    ∀ l, p.isPrefixOf l = true ↔ ∃ t, p ++ t = l := by
  induction p with
  | nil => intro l; simp [List.isPrefixOf]
  | cons a p ih =>
      intro l
      cases l with
      | nil => simp [List.isPrefixOf]
      | cons b l' =>
          simp only [List.isPrefixOf, Bool.and_eq_true, beq_iff_eq, ih l']
          constructor
          · rintro ⟨rfl, t, rfl⟩; exact ⟨t, rfl⟩
          · rintro ⟨t, ht⟩
            injection ht with h1 h2
            exact ⟨h1, t, h2⟩

theorem regexSearch_iff (cs : List Char) :
    regexSearch cs = true ↔ ∃ p ∈ altSubs, SubSeg p cs := by
  induction cs with
  | nil =>
      simp only [regexSearch]
      constructor
      · intro h; exact absurd h (by decide)
      · rintro ⟨p, hp, u, v, heq⟩
        exfalso
        rcases List.append_eq_nil.mp heq with ⟨h1, -⟩
        rcases List.append_eq_nil.mp h1 with ⟨-, h2⟩
        subst h2
        exact absurd hp (by decide)
  | cons c rest ih =>
      simp only [regexSearch, Bool.or_eq_true, ih]
      constructor
      · rintro (hat | ⟨p, hp, u, v, heq⟩)
        · simp only [matchAltAt, List.any_eq_true] at hat
          obtain ⟨p, hp, hpre⟩ := hat
          obtain ⟨t, ht⟩ := (isPrefixOf_iff_ex p _).mp hpre
          exact ⟨p, hp, [], t, by simpa using ht⟩
        · exact ⟨p, hp, c :: u, v, by simp [← heq]⟩
      · rintro ⟨p, hp, u, v, heq⟩
        cases u with
        | nil =>
            left
            simp only [matchAltAt, List.any_eq_true]
            refine ⟨p, hp, (isPrefixOf_iff_ex p _).mpr ⟨v, ?_⟩⟩
            simpa using heq
        | cons x u' =>
            right
            injection heq with h1 h2
            exact ⟨p, hp, u', v, h2⟩

/-- C7 counterexample: `doc.pdfx` is not of one of the four accepted types,
yet the filter accepts it, because the regex test is an unanchored
substring match on the extension. -/
theorem C7_counterexample_pdfx :
    uploadAccepted "doc.pdfx" 100 = true ∧
    claimAccepts "doc.pdfx" 100 = false := by decide

/-- C7 (amended): a file passes the multer acceptance iff its lowercased
extension contains one of the substrings `pdf`, `png`, `jpg`, `jpeg`, `txt`
and its size is within 10 MiB; in particular every file of exactly the
claimed types is accepted, but some other extensions (such as `.pdfx`) are
accepted as well. -/
theorem C7_filter_substring (name : String) (size : Nat) :
    (uploadAccepted name size = true ↔
      (∃ p ∈ altSubs, SubSeg p (lowerStr (pathExtname name)).data) ∧
        size ≤ 10 * 1024 * 1024) ∧
    (claimAccepts name size = true → uploadAccepted name size = true) := by
  constructor
  · unfold uploadAccepted fileFilterAccepts
    rw [Bool.and_eq_true, regexSearch_iff, decide_eq_true_iff]
  · intro hclaim
    unfold claimAccepts at hclaim
    rw [Bool.and_eq_true] at hclaim
    obtain ⟨hext, hsize⟩ := hclaim
    unfold uploadAccepted fileFilterAccepts
    rw [Bool.and_eq_true]
    refine ⟨?_, hsize⟩
    have hmem : lowerStr (pathExtname name) ∈
        [".pdf", ".png", ".jpg", ".jpeg", ".txt"] := by
      have := List.contains_iff_exists_mem_beq.mp hext
      obtain ⟨x, hx, hbeq⟩ := this
      rw [eq_of_beq hbeq]
      exact hx
    simp only [List.mem_cons, List.not_mem_nil, or_false] at hmem
    rcases hmem with h | h | h | h | h <;> rw [h] <;> rfl

/-- C7 witness: a concretely accepted `.txt` upload, through the amended
theorem's claim-side direction. -/
theorem C7_filter_substring_witness :
    uploadAccepted "doc.txt" 100 = true :=
  (C7_filter_substring "doc.txt" 100).2 (by decide)

/-! ## QR payload serialization (`JSON.stringify({ cert, hash })`) -/

/-- Characters of `{"cert":"`. -/
def jsonPre : List Char := "\x7b\"cert\":\"".data

/-- Characters of `","hash":"` without its leading quote. -/
def jsonKeyHash : List Char := ",\"hash\":\"".data

/-- Characters of `"}`. -/
def jsonSuf : List Char := "\"\x7d".data

/-- `JSON.stringify({ cert: c, hash: h })` for strings whose characters need
no JSON escaping (the pipeline's values are `CERT-…` identifiers and hex
digests): renders `\x7b"cert":"<c>","hash":"<h>"\x7d`. -/
def serializeQR (cert hash : String) : String :=
  ⟨jsonPre ++ cert.data ++ '"' :: jsonKeyHash ++ hash.data ++ jsonSuf⟩

/-- Characters allowed in the pipeline's identifiers and fingerprints:
alphanumerics and the hyphen (`CERT-\d{8}-\d{4}` and lowercase-hex sha256
output use only these). -/
def safeIdChar (c : Char) : Bool := c.isAlphanum || c = '-'

theorem safeIdChar_spec (c : Char) (h : safeIdChar c = true) :
    c ≠ '"' ∧ c ≠ '\\' ∧ c ≠ '\x7b' ∧ c ≠ '\x7d' ∧ c ≠ '\n' ∧ c ≠ '\r' ∧
      c ≠ '(' := by
  refine ⟨?_, ?_, ?_, ?_, ?_, ?_, ?_⟩ <;>
    · intro he; subst he; exact absurd h (by decide)

/-- Reads a JSON string body up to its closing quote; fails on any escape
sequence (the payloads at issue contain none). -/
def readStr : List Char → Option (List Char × List Char)
  | [] => none
  | c :: r =>
    if c = '"' then some ([], r)
    else if c = '\\' then none
    else (readStr r).map (fun p => (c :: p.1, p.2))

/-- Consume an expected literal. -/
def dropLit (l cs : List Char) : Option (List Char) :=
  if l.isPrefixOf cs then some (cs.drop l.length) else none

/-- `JSON.parse` restricted to the exact object shape the stamper writes
(`\x7b"cert":"…","hash":"…"\x7d`, no escapes, no extra whitespace), combined
with the handlers' destructuring of `cert` and `hash` and their
`if (!cert || !hash)` rejection of empty fields; every other input yields
`none`, as the handlers' parse-failure / missing-field branches do. -/
def parseQR (s : String) : Option (String × String) :=
  match dropLit jsonPre s.data with
  | none => none
  | some r1 =>
    match readStr r1 with
    | none => none
    | some (c, r2) =>
      match dropLit jsonKeyHash r2 with
      | none => none
      | some r3 =>
        match readStr r3 with
        | none => none
        | some (h, r4) =>
          if r4 = ['\x7d'] ∧ c ≠ [] ∧ h ≠ [] then some (⟨c⟩, ⟨h⟩) else none

theorem readStr_append (a : List Char) :
    ∀ r, (∀ c ∈ a, c ≠ '"' ∧ c ≠ '\\') →
      readStr (a ++ '"' :: r) = some (a, r) := by
  induction a with
  | nil => intro r _; rfl
  | cons c a ih =>
      intro r ha
      obtain ⟨h1, h2⟩ := ha c (List.mem_cons_self c a)
      show readStr (c :: (a ++ '"' :: r)) = _
      rw [readStr, if_neg h1, if_neg h2,
        ih r (fun c' hc' => ha c' (List.mem_cons_of_mem c hc'))]
      rfl

theorem dropLit_append (l cs : List Char) : dropLit l (l ++ cs) = some cs := by
  unfold dropLit
  rw [if_pos ((isPrefixOf_iff_ex l (l ++ cs)).mpr ⟨cs, rfl⟩), List.drop_left]

/-- The restricted parse inverts the serializer on safe, nonempty
identifier/fingerprint pairs. -/
theorem parseQR_serializeQR (cert hash : String)
    (hc : ∀ c ∈ cert.data, safeIdChar c = true)
    (hh : ∀ c ∈ hash.data, safeIdChar c = true)
    (hcne : cert.data ≠ []) (hhne : hash.data ≠ []) :
    parseQR (serializeQR cert hash) = some (cert, hash) := by
  have hcSafe : ∀ c ∈ cert.data, c ≠ '"' ∧ c ≠ '\\' := fun c hm =>
    ⟨(safeIdChar_spec c (hc c hm)).1, (safeIdChar_spec c (hc c hm)).2.1⟩
  have hhSafe : ∀ c ∈ hash.data, c ≠ '"' ∧ c ≠ '\\' := fun c hm =>
    ⟨(safeIdChar_spec c (hh c hm)).1, (safeIdChar_spec c (hh c hm)).2.1⟩
  have hdata : (serializeQR cert hash).data =
      jsonPre ++ (cert.data ++ '"' ::
        (jsonKeyHash ++ (hash.data ++ ('"' :: ['\x7d'])))) := by
    show jsonPre ++ cert.data ++ '"' :: jsonKeyHash ++ hash.data ++ jsonSuf = _
    simp [List.append_assoc, jsonSuf]
  unfold parseQR
  rw [hdata]
  simp only [dropLit_append,
    readStr_append cert.data (jsonKeyHash ++ (hash.data ++ '"' :: ['\x7d']))
      hcSafe,
    readStr_append hash.data ['\x7d'] hhSafe]
  simp [hcne, hhne]

/-! ## Document Stamper: PDF metadata and text footer -/

/-- The PDF title `addMinimalCertificateToPDF` (and `convertImageToPDF`)
writes: `QR:` followed by the serialized payload. -/
def stampedPdfTitle (cert hash : String) : String :=
  "QR:" ++ serializeQR cert hash

/-- `extractQRDataFromPDF`: reads the stamped PDF's title metadata; when it
is present and starts with `QR:`, returns everything after that tag. -/
def extractQRDataFromPDF (title : Option String) : Option String :=
  match title with
  | some t =>
      if ['Q', 'R', ':'].isPrefixOf t.data then some ⟨t.data.drop 3⟩ else none
  | none => none

/-- `'═'.repeat(80)`. -/
def certBar : String := ⟨List.replicate 80 '═'⟩

/-- `'─'.repeat(80)`. -/
def dashBar : String := ⟨List.replicate 80 '─'⟩

/-- The certificate block the QR-variant server's template appends after
the `${originalContent}` hole (blank line, bars, the certificate fields,
and the `QR Data (for verification):` payload line).  `ts` is
`new Date().toLocaleString()`. -/
def certifiedBlock3 (cert hash ts : String) : String :=
  "\n\n" ++ certBar ++
    "\nBLOCKCHAIN VERIFIED CERTIFICATE\nCertificate Number: " ++ cert ++
    "\nDocument Hash: " ++ hash ++ "\nCertified: " ++ ts ++
    "\n\nQR Data (for verification): " ++ serializeQR cert hash ++
    "\n\nUpload this file to verify at: http://localhost:3000\n" ++
    certBar ++ "\n"

/-- `createCertifiedTextFile` of the QR-variant server: the original
content first, then the appended certificate block. -/
def createCertifiedTextFile3 (content cert hash ts : String) : String :=
  content ++ certifiedBlock3 cert hash ts

/-- The part of the watermark-variant server's certified-text template
before the `${originalContent}` hole. -/
def certifiedHeader2 (cert hash ts : String) : String :=
  "\n" ++ certBar ++
    "\n                    BLOCKCHAIN CERTIFIED DOCUMENT\n" ++ certBar ++
    "\n\nCERTIFICATE NUMBER: " ++ cert ++ "\n\nDOCUMENT HASH: " ++ hash ++
    "\n\nCERTIFICATION DATE: " ++ ts ++
    "\n\nVERIFICATION: http://localhost:3000\n\nSTATUS: SECURED ON BLOCKCHAIN\n\n" ++
    certBar ++ "\n\nORIGINAL DOCUMENT CONTENT:\n" ++ dashBar ++ "\n\n"

/-- The part of the watermark-variant server's certified-text template
after the `${originalContent}` hole. -/
def certifiedFooter2 (cert : String) : String :=
  "\n\n" ++ dashBar ++ "\n\n" ++ certBar ++
    "\nEND OF CERTIFIED DOCUMENT\nCertificate Number: " ++ cert ++
    "\nThis document is secured on blockchain and can be verified at http://localhost:3000\n" ++
    certBar ++ "\n"

/-- `createCertifiedTextFile` of the watermark-variant server: a banner and
certificate block first, the original content as an interior section, a
footer last. -/
def createCertifiedTextFile2 (content cert hash ts : String) : String :=
  certifiedHeader2 cert hash ts ++ content ++ certifiedFooter2 cert

/-- C4 counterexample: for the watermark-variant stamper, the one-byte
content `A` is not a prefix of its stamped output (which starts with the
banner), refuting the claim for that stamper. -/
theorem C4_counterexample_header_first :
    "A".data.isPrefixOf
      (createCertifiedTextFile2 "A" "CERT-1" "h" "ts").data = false := by
  decide

/-- C4 (amended): the QR-variant stamper appends its block after the
original content, which therefore is an exact prefix of the output; the
watermark-variant stamper instead surrounds the original content with a
header and footer, so there the content appears only as an interior
segment. -/
theorem C4_text_prefix_amended (content cert hash ts : String) :
    content.data.isPrefixOf
      (createCertifiedTextFile3 content cert hash ts).data = true ∧
    SubSeg content.data
      (createCertifiedTextFile2 content cert hash ts).data := by
  constructor
  · apply (isPrefixOf_iff_ex _ _).mpr
    exact ⟨(certifiedBlock3 cert hash ts).data,
      (String.data_append content (certifiedBlock3 cert hash ts)).symm⟩
  · refine ⟨(certifiedHeader2 cert hash ts).data, (certifiedFooter2 cert).data, ?_⟩
    show (certifiedHeader2 cert hash ts).data ++ content.data ++
        (certifiedFooter2 cert).data =
      (certifiedHeader2 cert hash ts ++ content ++ certifiedFooter2 cert).data
    rw [String.data_append, String.data_append]

/-! ## `POST /api/upload` handlers and temp-file cleanup (C5) -/

/-- Result of `blockchainService.registerDocument`: the service returns
`{success: true, txHash}` or `{success: false, error}`; `thrown` covers a
synchronous throw later in the handler body, landing in its `catch`. -/
inductive RegResult where
  | ok (txHash : String)
  | fail (err : String)
  | thrown (msg : String)
deriving DecidableEq, Repr

/-- What an upload request leaves behind: the HTTP status, whether the
uploaded temp file was unlinked, and the error label, if any. -/
structure UploadOutcome where
  status : Nat
  tempRemoved : Bool
  errorMsg : Option String
deriving DecidableEq, Repr

/-- The `POST /api/upload` handler of the QR-variant server, from the point
where the fingerprint has been computed (the missing-file 400 happens
earlier).  `proc` is `processCertifiedDocument`'s result, which is `null`
on any stamping failure (it catches its own errors).  Registration failure
and the `catch` block unlink the temp file; the processing-failure branch
returns 500 without unlinking. -/
def uploadHandler3 (reg : RegResult) (proc : Option String) : UploadOutcome :=
  match reg with
  | RegResult.fail _ => ⟨500, true, some "Blockchain registration failed"⟩
  | RegResult.thrown _ => ⟨500, true, some "Server error"⟩
  | RegResult.ok _ =>
    match proc with
    | none => ⟨500, false, some "Document processing failed"⟩
    | some _ => ⟨200, false, none⟩

/-- The `POST /api/upload` handler of the watermark-variant server; same
control flow as the QR variant, with its own error labels. -/
def uploadHandler2 (reg : RegResult) (proc : Option String) : UploadOutcome :=
  match reg with
  | RegResult.fail _ => ⟨500, true, some "Failed to register on blockchain"⟩
  | RegResult.thrown _ => ⟨500, true, some "Internal server error"⟩
  | RegResult.ok _ =>
    match proc with
    | none => ⟨500, false, some "Failed to process document and add certificate"⟩
    | some _ => ⟨200, false, none⟩

/-- C5: at the failing input (registration succeeded, document processing
failed), both servers answer 500 with the temp file still on disk, while
the other failure paths after hashing do unlink it — contradicting the
spec's "always removed on any failure path". -/
theorem C5_processing_failure_leak :
    uploadHandler3 (RegResult.ok "0xabc") none =
      ⟨500, false, some "Document processing failed"⟩ ∧
    uploadHandler2 (RegResult.ok "0xabc") none =
      ⟨500, false, some "Failed to process document and add certificate"⟩ ∧
    (uploadHandler3 (RegResult.fail "revert") none).tempRemoved = true ∧
    (uploadHandler3 (RegResult.thrown "boom") none).tempRemoved = true ∧
    (uploadHandler2 (RegResult.fail "revert") none).tempRemoved = true ∧
    (uploadHandler2 (RegResult.thrown "boom") none).tempRemoved = true :=
  ⟨rfl, rfl, rfl, rfl, rfl, rfl⟩

/-! ## Text-footer payload extraction
(`content.match(/QR Data \(for verification\): ({.*?})/)` in
`/api/verify-upload`) -/

/-- The literal part of the extraction regex, before the captured group. -/
def fkey : List Char := "QR Data (for verification): ".data

/-- The lazy `.*?}` tail of the capture: the shortest run of
non-line-terminator characters up to a closing brace; fails when a line
terminator or the end of input comes first (`.` does not match line
terminators). -/
def grabToBrace : List Char → Option (List Char)
  | [] => none
  | c :: t =>
    if c = '\x7d' then some []
    else if c = '\n' ∨ c = '\r' then none
    else (grabToBrace t).map (c :: ·)

/-- One regex start position: the literal `fkey`, then the group
`({.*?})`. -/
def matchQRAt (cs : List Char) : Option (List Char) :=
  if fkey.isPrefixOf cs then
    match cs.drop fkey.length with
    | '\x7b' :: t => (grabToBrace t).map (fun mid => '\x7b' :: (mid ++ ['\x7d']))
    | _ => none
  else none

/-- `content.match(regex)` without the `g` flag: try every start position
left to right and return the first successful position's captured group. -/
def scanQR : List Char → Option (List Char)
  | [] => none
  | c :: rest =>
    match matchQRAt (c :: rest) with
    | some r => some r
    | none => scanQR rest

/-- The `.txt` branch of `/api/verify-upload`: the first match's captured
group, as a string. -/
def extractTxtQR (content : String) : Option String :=
  (scanQR content.data).map (fun cs => ⟨cs⟩)

/-- Does the footer literal occur anywhere in `l`?  (Decidable form.) -/
def hasFooterKey (l : List Char) : Bool :=
  (List.range l.length).any (fun n => fkey.isPrefixOf (l.drop n))

/-- No start position of `l` begins an occurrence of the footer literal. -/
def KeyFree (l : List Char) : Prop :=
  ∀ n, fkey.isPrefixOf (l.drop n) = false

theorem mem_of_isPrefixOf {p m : List Char} (h : p.isPrefixOf m = true)
    {c : Char} (hc : c ∈ p) : c ∈ m := by
  obtain ⟨t, rfl⟩ := (isPrefixOf_iff_ex p m).mp h
  exact List.mem_append_left _ hc

theorem keyFree_of_not_hasFooterKey (l : List Char)
    (h : hasFooterKey l = false) : KeyFree l := by
  intro n
  by_cases hn : n < l.length
  · cases hp : fkey.isPrefixOf (l.drop n) with
    | false => rfl
    | true =>
        exfalso
        have : hasFooterKey l = true := by
          rw [hasFooterKey, List.any_eq_true]
          exact ⟨n, List.mem_range.mpr hn, hp⟩
        rw [h] at this
        cases this
  · rw [List.drop_eq_nil_of_le (by omega)]
    rfl

theorem keyFree_of_no_paren (l : List Char) (h : '(' ∉ l) : KeyFree l := by
  intro n
  cases hp : fkey.isPrefixOf (l.drop n) with
  | false => rfl
  | true =>
      exfalso
      exact h (List.mem_of_mem_drop (mem_of_isPrefixOf hp (by decide)))

theorem isPrefixOf_of_append (p : List Char) :
    ∀ (d e : List Char), p.length ≤ d.length → p.isPrefixOf (d ++ e) = true →
      p.isPrefixOf d = true := by
  induction p with
  | nil => intro d e _ _; cases d <;> rfl
  | cons q p ih =>
      intro d e hlen h
      cases d with
      | nil => simp at hlen
      | cons x d' =>
          simp only [List.cons_append, List.isPrefixOf, Bool.and_eq_true,
            beq_iff_eq] at h ⊢
          exact ⟨h.1, ih d' e (by simpa using hlen) h.2⟩

theorem mem_of_prefix_over (p : List Char) :
    ∀ (d b : List Char) (c : Char), d.length < p.length →
      p.isPrefixOf (d ++ c :: b) = true → c ∈ p := by
  induction p with
  | nil => intro d b c hlen; simp at hlen
  | cons q p ih =>
      intro d b c hlen h
      cases d with
      | nil =>
          simp only [List.nil_append, List.isPrefixOf, Bool.and_eq_true,
            beq_iff_eq] at h
          rw [h.1]
          exact List.mem_cons_self c p
      | cons x d' =>
          simp only [List.cons_append, List.isPrefixOf, Bool.and_eq_true,
            beq_iff_eq] at h
          exact List.mem_cons_of_mem q (ih d' b c (by simpa using hlen) h.2)

/-- An occurrence of the footer literal cannot start inside a key-free
segment that is terminated by a newline: the literal contains no newline,
so it would have to fit before the newline, where it does not occur. -/
theorem key_not_at_boundary (d b : List Char)
    (hd : fkey.isPrefixOf d = false) :
    fkey.isPrefixOf (d ++ '\n' :: b) = false := by
  cases hh : fkey.isPrefixOf (d ++ '\n' :: b) with
  | false => rfl
  | true =>
      exfalso
      by_cases hlen : fkey.length ≤ d.length
      · have := isPrefixOf_of_append fkey d ('\n' :: b) hlen hh
        rw [hd] at this
        cases this
      · have : '\n' ∈ fkey :=
          mem_of_prefix_over fkey d b '\n' (by omega) hh
        exact absurd this (by decide)

theorem key_not_newline_head (b : List Char) :
    fkey.isPrefixOf ('\n' :: b) = false := by
  rw [show fkey = 'Q' :: "R Data (for verification): ".data from rfl,
    List.isPrefixOf]
  rw [show (('Q' : Char) == '\n') = false from by decide, Bool.false_and]

theorem matchQRAt_none (cs : List Char)
    (h : fkey.isPrefixOf cs = false) : matchQRAt cs = none := by
  unfold matchQRAt
  rw [h]
  rfl

/-- `ScanSkip l tail`: scanning `l` finds no match before reaching the
suffix `tail`. -/
def ScanSkip (l tail : List Char) : Prop := scanQR l = scanQR tail

theorem scanSkip_refl (l : List Char) : ScanSkip l l := rfl

theorem scanSkip_newline (b tail : List Char) (h : ScanSkip b tail) :
    ScanSkip ('\n' :: b) tail := by
  unfold ScanSkip at h ⊢
  rw [show scanQR ('\n' :: b) = scanQR b from by
    rw [scanQR, matchQRAt_none _ (key_not_newline_head b)]]
  exact h

/-- A key-free segment followed by a newline contributes no match. -/
theorem scanSkip_seg (a : List Char) :
    ∀ (b tail : List Char), KeyFree a → ScanSkip ('\n' :: b) tail →
      ScanSkip (a ++ '\n' :: b) tail := by
  induction a with
  | nil => intro b tail _ h; exact h
  | cons x a' ih =>
      intro b tail ha h
      have hd : fkey.isPrefixOf (x :: a') = false := by
        have := ha 0
        simpa using this
      have hbound : fkey.isPrefixOf ((x :: a') ++ '\n' :: b) = false :=
        key_not_at_boundary (x :: a') b hd
      unfold ScanSkip
      rw [show (x :: a') ++ '\n' :: b = x :: (a' ++ '\n' :: b) from rfl] at hbound
      show scanQR (x :: (a' ++ '\n' :: b)) = scanQR tail
      rw [show scanQR (x :: (a' ++ '\n' :: b)) = scanQR (a' ++ '\n' :: b) from by
        rw [scanQR, matchQRAt_none _ hbound]]
      exact ih b tail (fun n => by simpa using ha (n + 1)) h

theorem grabToBrace_run (mid : List Char)
    (hmid : ∀ c ∈ mid, c ≠ '\x7d' ∧ c ≠ '\n' ∧ c ≠ '\r') (rest : List Char) :
    grabToBrace (mid ++ '\x7d' :: rest) = some mid := by
  induction mid with
  | nil =>
      show grabToBrace ('\x7d' :: rest) = some []
      rw [grabToBrace, if_pos rfl]
  | cons c mid ih =>
      obtain ⟨h1, h2, h3⟩ := hmid c (List.mem_cons_self c mid)
      show grabToBrace (c :: (mid ++ '\x7d' :: rest)) = _
      rw [grabToBrace, if_neg h1, if_neg (by rintro (h | h) <;> contradiction),
        ih (fun c' hc' => hmid c' (List.mem_cons_of_mem c hc'))]
      rfl

theorem matchQRAt_hit (mid rest : List Char)
    (hmid : ∀ c ∈ mid, c ≠ '\x7d' ∧ c ≠ '\n' ∧ c ≠ '\r') :
    matchQRAt (fkey ++ '\x7b' :: (mid ++ '\x7d' :: rest)) =
      some ('\x7b' :: (mid ++ ['\x7d'])) := by
  unfold matchQRAt
  rw [if_pos ((isPrefixOf_iff_ex fkey _).mpr ⟨_, rfl⟩), List.drop_left]
  simp only [grabToBrace_run mid hmid rest, Option.map_some']

theorem scanQR_hit (cs r : List Char) (h : matchQRAt cs = some r) :
    scanQR cs = some r := by
  cases cs with
  | nil =>
      rw [matchQRAt_none [] (by rfl)] at h
      cases h
  | cons c rest =>
      rw [scanQR, h]

set_option maxRecDepth 10000 in
/-- C3 (amended), for identifiers/fingerprints over the pipeline's alphabet
(alphanumerics and hyphen, nonempty): the PDF round-trip always recovers the
registered pair, and the text round-trip recovers it provided the original
content does not itself contain the footer marker
`QR Data (for verification): ` and the locale timestamp contains no `(`
(so no earlier regex match can exist). -/
theorem C3_roundtrip_amended (cert hash content ts : String)
    (hc : ∀ c ∈ cert.data, safeIdChar c = true)
    (hh : ∀ c ∈ hash.data, safeIdChar c = true)
    (hcne : cert.data ≠ []) (hhne : hash.data ≠ [])
    (hcontent : hasFooterKey content.data = false)
    (hts : '(' ∉ ts.data) :
    (extractQRDataFromPDF (some (stampedPdfTitle cert hash))).bind parseQR =
      some (cert, hash) ∧
    (extractTxtQR (createCertifiedTextFile3 content cert hash ts)).bind
      parseQR = some (cert, hash) := by
  have hparse := parseQR_serializeQR cert hash hc hh hcne hhne
  constructor
  · -- PDF path: title `QR:<json>`, extraction strips the tag.
    have htitle : (stampedPdfTitle cert hash).data =
        'Q' :: 'R' :: ':' :: (serializeQR cert hash).data := by
      show ("QR:" ++ serializeQR cert hash).data = _
      rw [String.data_append]
      rfl
    have hext : extractQRDataFromPDF (some (stampedPdfTitle cert hash)) =
        some (serializeQR cert hash) := by
      show (if ['Q', 'R', ':'].isPrefixOf (stampedPdfTitle cert hash).data = true
          then some (⟨(stampedPdfTitle cert hash).data.drop 3⟩ : String)
          else none) = some (serializeQR cert hash)
      rw [htitle]
      rw [if_pos (by
        apply (isPrefixOf_iff_ex _ _).mpr
        exact ⟨(serializeQR cert hash).data, rfl⟩)]
      rfl
    rw [hext]
    show parseQR (serializeQR cert hash) = some (cert, hash)
    exact hparse
  · -- Text path.
    set INNER : List Char := "\"cert\":\"".data ++
      (cert.data ++ '"' :: (jsonKeyHash ++ (hash.data ++ ['"']))) with hINNERdef
    set TAILQR : List Char := '\n' :: '\n' ::
      ("Upload this file to verify at: http://localhost:3000".data ++
        '\n' :: (certBar.data ++ ['\n'])) with hTAILdef
    set YS : List Char := fkey ++ '\x7b' :: (INNER ++ '\x7d' :: TAILQR)
      with hYSdef
    have e0 : ("\n\n" : String).data = ['\n', '\n'] := rfl
    have e2 : ("\nBLOCKCHAIN VERIFIED CERTIFICATE\nCertificate Number: " :
        String).data = '\n' :: ("BLOCKCHAIN VERIFIED CERTIFICATE".data ++
          '\n' :: "Certificate Number: ".data) := rfl
    have e3 : ("\nDocument Hash: " : String).data =
        '\n' :: "Document Hash: ".data := rfl
    have e4 : ("\nCertified: " : String).data =
        '\n' :: "Certified: ".data := rfl
    have e5 : ("\n\nQR Data (for verification): " : String).data =
        '\n' :: '\n' :: fkey := rfl
    have e6 : ("\n\nUpload this file to verify at: http://localhost:3000\n" :
        String).data = '\n' :: '\n' ::
          ("Upload this file to verify at: http://localhost:3000".data ++
            ['\n']) := rfl
    have e7 : ("\n" : String).data = ['\n'] := rfl
    have ejson : (serializeQR cert hash).data =
        jsonPre ++ cert.data ++ '"' :: jsonKeyHash ++ hash.data ++ jsonSuf :=
      rfl
    have ejpre : jsonPre = '\x7b' :: "\"cert\":\"".data := rfl
    have ejsuf : jsonSuf = '"' :: '\x7d' :: [] := rfl
    have hN : (createCertifiedTextFile3 content cert hash ts).data =
        content.data ++ '\n' :: '\n' :: (certBar.data ++ '\n' ::
          ("BLOCKCHAIN VERIFIED CERTIFICATE".data ++ '\n' ::
            (("Certificate Number: ".data ++ cert.data) ++ '\n' ::
              (("Document Hash: ".data ++ hash.data) ++ '\n' ::
                (("Certified: ".data ++ ts.data) ++ '\n' :: '\n' :: YS))))) := by
      rw [hYSdef, hINNERdef, hTAILdef]
      simp only [createCertifiedTextFile3, certifiedBlock3, String.data_append,
        ejson, ejpre, ejsuf, e0, e2, e3, e4, e5, e6, e7, List.cons_append,
        List.nil_append, List.append_assoc]
      rfl
    have hInnerSafe : ∀ c ∈ INNER, c ≠ '\x7d' ∧ c ≠ '\n' ∧ c ≠ '\r' := by
      intro c hcm
      rw [hINNERdef] at hcm
      have hofSafe : ∀ x : Char, safeIdChar x = true →
          x ≠ '\x7d' ∧ x ≠ '\n' ∧ x ≠ '\r' := fun x hx =>
        ⟨(safeIdChar_spec x hx).2.2.2.1, (safeIdChar_spec x hx).2.2.2.2.1,
          (safeIdChar_spec x hx).2.2.2.2.2.1⟩
      rcases List.mem_append.mp hcm with hm | hm
      · exact (by decide : ∀ x ∈ ("\"cert\":\"" : String).data,
          x ≠ '\x7d' ∧ x ≠ '\n' ∧ x ≠ '\r') c hm
      · rcases List.mem_append.mp hm with hm2 | hm2
        · exact hofSafe c (hc c hm2)
        · rcases List.mem_cons.mp hm2 with hm3 | hm3
          · subst hm3; exact ⟨by decide, by decide, by decide⟩
          · rcases List.mem_append.mp hm3 with hm4 | hm4
            · exact (by decide : ∀ x ∈ jsonKeyHash,
                x ≠ '\x7d' ∧ x ≠ '\n' ∧ x ≠ '\r') c hm4
            · rcases List.mem_append.mp hm4 with hm5 | hm5
              · exact hofSafe c (hh c hm5)
              · rcases List.mem_cons.mp hm5 with hm6 | hm6
                · subst hm6; exact ⟨by decide, by decide, by decide⟩
                · cases hm6
    have kf_cert : KeyFree ("Certificate Number: ".data ++ cert.data) := by
      apply keyFree_of_no_paren
      intro hmem
      rcases List.mem_append.mp hmem with hm | hm
      · exact absurd hm (by decide)
      · exact absurd (hc '(' hm) (by decide)
    have kf_hash : KeyFree ("Document Hash: ".data ++ hash.data) := by
      apply keyFree_of_no_paren
      intro hmem
      rcases List.mem_append.mp hmem with hm | hm
      · exact absurd hm (by decide)
      · exact absurd (hh '(' hm) (by decide)
    have kf_ts : KeyFree ("Certified: ".data ++ ts.data) := by
      apply keyFree_of_no_paren
      intro hmem
      rcases List.mem_append.mp hmem with hm | hm
      · exact absurd hm (by decide)
      · exact hts hm
    have kf_bar : KeyFree certBar.data := by
      apply keyFree_of_no_paren
      exact by decide
    have kf_title : KeyFree ("BLOCKCHAIN VERIFIED CERTIFICATE" : String).data :=
      keyFree_of_not_hasFooterKey _ (by decide)
    have kf_content : KeyFree content.data :=
      keyFree_of_not_hasFooterKey _ hcontent
    have s6 : ScanSkip (("Certified: ".data ++ ts.data) ++ '\n' :: '\n' :: YS)
        YS :=
      scanSkip_seg _ _ _ kf_ts
        (scanSkip_newline _ _ (scanSkip_newline _ _ (scanSkip_refl YS)))
    have s5 : ScanSkip (("Document Hash: ".data ++ hash.data) ++ '\n' ::
        (("Certified: ".data ++ ts.data) ++ '\n' :: '\n' :: YS)) YS :=
      scanSkip_seg _ _ _ kf_hash (scanSkip_newline _ _ s6)
    have s4 : ScanSkip (("Certificate Number: ".data ++ cert.data) ++ '\n' ::
        (("Document Hash: ".data ++ hash.data) ++ '\n' ::
          (("Certified: ".data ++ ts.data) ++ '\n' :: '\n' :: YS))) YS :=
      scanSkip_seg _ _ _ kf_cert (scanSkip_newline _ _ s5)
    have s3 : ScanSkip ("BLOCKCHAIN VERIFIED CERTIFICATE".data ++ '\n' ::
        (("Certificate Number: ".data ++ cert.data) ++ '\n' ::
          (("Document Hash: ".data ++ hash.data) ++ '\n' ::
            (("Certified: ".data ++ ts.data) ++ '\n' :: '\n' :: YS)))) YS :=
      scanSkip_seg _ _ _ kf_title (scanSkip_newline _ _ s4)
    have s2 : ScanSkip (certBar.data ++ '\n' ::
        ("BLOCKCHAIN VERIFIED CERTIFICATE".data ++ '\n' ::
          (("Certificate Number: ".data ++ cert.data) ++ '\n' ::
            (("Document Hash: ".data ++ hash.data) ++ '\n' ::
              (("Certified: ".data ++ ts.data) ++ '\n' :: '\n' :: YS))))) YS :=
      scanSkip_seg _ _ _ kf_bar (scanSkip_newline _ _ s3)
    have sN : ScanSkip (content.data ++ '\n' :: '\n' :: (certBar.data ++ '\n' ::
        ("BLOCKCHAIN VERIFIED CERTIFICATE".data ++ '\n' ::
          (("Certificate Number: ".data ++ cert.data) ++ '\n' ::
            (("Document Hash: ".data ++ hash.data) ++ '\n' ::
              (("Certified: ".data ++ ts.data) ++ '\n' :: '\n' :: YS)))))) YS :=
      scanSkip_seg _ _ _ kf_content
        (scanSkip_newline _ _ (scanSkip_newline _ _ s2))
    have hYSscan : scanQR YS = some ('\x7b' :: (INNER ++ ['\x7d'])) := by
      rw [hYSdef]
      exact scanQR_hit _ _ (matchQRAt_hit INNER TAILQR hInnerSafe)
    have hcap : ('\x7b' :: (INNER ++ ['\x7d'])) =
        (serializeQR cert hash).data := by
      rw [hINNERdef, ejson, ejpre, ejsuf]
      simp only [List.cons_append, List.nil_append, List.append_assoc]
    have hscan : scanQR (createCertifiedTextFile3 content cert hash ts).data =
        some ((serializeQR cert hash).data) := by
      rw [hN]
      rw [show scanQR (content.data ++ '\n' :: '\n' :: (certBar.data ++ '\n' ::
        ("BLOCKCHAIN VERIFIED CERTIFICATE".data ++ '\n' ::
          (("Certificate Number: ".data ++ cert.data) ++ '\n' ::
            (("Document Hash: ".data ++ hash.data) ++ '\n' ::
              (("Certified: ".data ++ ts.data) ++ '\n' :: '\n' :: YS))))))
          = scanQR YS from sN, hYSscan, hcap]
    unfold extractTxtQR
    rw [hscan]
    show parseQR ⟨(serializeQR cert hash).data⟩ = some (cert, hash)
    exact hparse

/-- A text document whose own content carries a decoy footer line. -/
def decoyContent : String :=
  "QR Data (for verification): \x7b\"cert\":\"FAKE\",\"hash\":\"0\"\x7d"

/-- C3 counterexample: stamping `decoyContent` and extracting recovers the
decoy pair `(FAKE, 0)` from the original content — the regex takes the
first match — not the registered pair. -/
theorem C3_counterexample_decoy :
    (extractTxtQR (createCertifiedTextFile3 decoyContent "CERT-12345678-0042"
        "4a5b" "10/12/2026, 10:00:00 AM")).bind parseQR =
      some ("FAKE", "0") ∧
    (("FAKE" : String), ("0" : String)) ≠ ("CERT-12345678-0042", "4a5b") := by
  constructor
  · decide
  · decide

/-- C3 witness: a concrete benign registration satisfies the amended
theorem's hypotheses, and both round-trips recover the registered pair. -/
theorem C3_roundtrip_amended_witness :
    (extractQRDataFromPDF (some (stampedPdfTitle "CERT-12345678-0042"
        "ab12cd"))).bind parseQR = some ("CERT-12345678-0042", "ab12cd") ∧
    (extractTxtQR (createCertifiedTextFile3 "hello world"
        "CERT-12345678-0042" "ab12cd" "10/12/2026, 10:00:00 AM")).bind
      parseQR = some ("CERT-12345678-0042", "ab12cd") :=
  C3_roundtrip_amended "CERT-12345678-0042" "ab12cd" "hello world"
    "10/12/2026, 10:00:00 AM" (by decide) (by decide) (by decide) (by decide)
    (by decide) (by decide)

/-! ## Verification Reconciler responses (C6, C10) -/

/-- Success message of `POST /api/verify` (watermark-variant server). -/
def msgVerifyValid2 : String := "✓ Document is VALID and verified on blockchain"

/-- Failure message of `POST /api/verify`: one string for both causes. -/
def msgVerifyInvalid2 : String :=
  "✗ Document verification FAILED - hash mismatch or certificate not found"

/-- The JSON body `POST /api/verify` responds with (success case). -/
structure VerifyResponse where
  isValid : Bool
  certificateNumber : String
  timestamp : Nat
  registeredHash : String
  providedHash : String
  message : String
deriving DecidableEq, Repr

/-- The `POST /api/verify` handler of the watermark-variant server, given
both request fields present and a reachable registry: the verdict is
`verifyDocument`'s boolean, `getDocument` fills `registeredHash`, and the
message is chosen by the boolean alone. -/
def apiVerify (s : ContractState) (cert hash : String) : VerifyResponse :=
  let r := verifyDocument s cert hash
  let info := s.docs cert
  { isValid := r.1
    certificateNumber := cert
    timestamp := r.2
    registeredHash := info.documentHash
    providedHash := hash
    message := if r.1 then msgVerifyValid2 else msgVerifyInvalid2 }

/-- C6 counterexample: on the one-record state, a hash-mismatch query and a
not-found query produce the same failure message — the handler does not
distinguish the two causes, though it did query `getDocument`. -/
theorem C6_counterexample_same_message :
    (st1.docs "CERT-1").exists' = true ∧
    (st1.docs "CERT-1").documentHash ≠ "WRONG" ∧
    (st1.docs "CERT-2").exists' = false ∧
    (apiVerify st1 "CERT-1" "WRONG").isValid = false ∧
    (apiVerify st1 "CERT-2" "h1").isValid = false ∧
    (apiVerify st1 "CERT-1" "WRONG").message =
      (apiVerify st1 "CERT-2" "h1").message := by
  decide

/-- C6 (amended): the verdict message distinguishes only valid from
invalid — any two invalid outcomes (hash mismatch or unknown certificate)
carry the same message, while a valid and an invalid outcome always carry
different ones; `getDocument` is queried separately but only feeds the
`registeredHash` field. -/
theorem C6_message_two_way (s : ContractState) (c h c' h' : String) :
    ((apiVerify s c h).isValid = false → (apiVerify s c' h').isValid = false →
      (apiVerify s c h).message = (apiVerify s c' h').message) ∧
    ((apiVerify s c h).isValid = true → (apiVerify s c' h').isValid = false →
      (apiVerify s c h).message ≠ (apiVerify s c' h').message) ∧
    (apiVerify s c h).registeredHash = (s.docs c).documentHash := by
  refine ⟨?_, ?_, rfl⟩
  · intro h1 h2
    have e1 : (verifyDocument s c h).1 = false := h1
    have e2 : (verifyDocument s c' h').1 = false := h2
    show (if (verifyDocument s c h).1 then msgVerifyValid2
        else msgVerifyInvalid2) =
      (if (verifyDocument s c' h').1 then msgVerifyValid2
        else msgVerifyInvalid2)
    rw [e1, e2]
  · intro h1 h2
    have e1 : (verifyDocument s c h).1 = true := h1
    have e2 : (verifyDocument s c' h').1 = false := h2
    show (if (verifyDocument s c h).1 then msgVerifyValid2
        else msgVerifyInvalid2) ≠
      (if (verifyDocument s c' h').1 then msgVerifyValid2
        else msgVerifyInvalid2)
    rw [e1, e2]
    decide

/-- C6 witness: valid and invalid outcomes concretely carry different
messages. -/
theorem C6_message_two_way_witness :
    (apiVerify st1 "CERT-1" "h1").message ≠
      (apiVerify st1 "CERT-2" "h1").message :=
  (C6_message_two_way st1 "CERT-1" "h1" "CERT-2" "h1").2.1 rfl rfl

/-- Success message of `POST /api/verify-upload` (QR-variant server). -/
def msgVU3Valid : String :=
  "✓ VALID - Certificate is authentic and verified on blockchain"

/-- Failure message of `POST /api/verify-upload` (QR-variant server). -/
def msgVU3Invalid : String :=
  "✗ INVALID - Certificate has been tampered with or is not authentic"

/-- What a `/api/verify-upload` request leaves behind: status, whether the
temp file was unlinked, how many registry calls were issued, and the
response fields. -/
structure VU3Outcome where
  status : Nat
  tempRemoved : Bool
  registryCalls : Nat
  errorMsg : Option String
  isValid : Option Bool
  message : Option String
deriving DecidableEq, Repr

/-- The `POST /api/verify-upload` handler of the QR-variant server:
extraction is attempted only for `.pdf` (PDF title metadata) and `.txt`
(footer regex) names; the temp file is unlinked unconditionally right after
extraction; with no payload the handler answers 400 without touching the
registry; otherwise it parses the payload, calls `verifyDocument` and
`getDocument` (two registry calls), and re-checks the extracted hash
against the stored one. -/
def verifyUploadHandler3 (s : ContractState) (originalname : String)
    (pdfTitle : Option String) (txtContent : String) : VU3Outcome :=
  match (if lowerStr (pathExtname originalname) = ".pdf" then
          extractQRDataFromPDF pdfTitle
        else if lowerStr (pathExtname originalname) = ".txt" then
          extractTxtQR txtContent
        else none) with
  | none => ⟨400, true, 0, some "No certificate found in document", none, none⟩
  | some qd =>
    match parseQR qd with
    | none =>
        ⟨400, true, 0, some "Invalid certificate data in document", none, none⟩
    | some (cert, hash) =>
      let r := verifyDocument s cert hash
      let info := s.docs cert
      let valid := r.1 && (hash == info.documentHash)
      ⟨200, true, 2, none, some valid,
        some (if valid then msgVU3Valid else msgVU3Invalid)⟩

/-- C10: for any uploaded name that is neither `.pdf` nor `.txt`
(case-insensitively), whatever the file contains, the handler deletes the
temp file and answers 400 `No certificate found in document` with zero
registry calls. -/
theorem C10_non_pdf_txt_no_registry (s : ContractState) (name : String)
    (pdfTitle : Option String) (txtContent : String)
    (hp : lowerStr (pathExtname name) ≠ ".pdf")
    (ht : lowerStr (pathExtname name) ≠ ".txt") :
    verifyUploadHandler3 s name pdfTitle txtContent =
      ⟨400, true, 0, some "No certificate found in document", none, none⟩ := by
  unfold verifyUploadHandler3
  rw [if_neg hp, if_neg ht]

/-- C10 witness: a stamped `.png` upload — even one whose metadata would
carry a payload — is rejected without registry calls. -/
theorem C10_non_pdf_txt_no_registry_witness :
    verifyUploadHandler3 initialState "photo.png"
        (some ("QR:" ++ serializeQR "CERT-1" "aa")) "unused" =
      ⟨400, true, 0, some "No certificate found in document", none, none⟩ :=
  C10_non_pdf_txt_no_registry initialState "photo.png"
    (some ("QR:" ++ serializeQR "CERT-1" "aa")) "unused"
    (by decide) (by decide)

end FakeChain
